import Mathlib

/-!
Shallow embedding of the hexgrid library (src/src/lib.rs): a cubic-coordinate
hex type with construction, validation, neighbor enumeration, distance and
component-wise addition/subtraction, together with theorems settling the
specification claims about it.

Machine integers: the source uses `i64`; the specification treats the
components as exact signed integers wide enough that the operations in use do
not overflow, so components are embedded as `Int`.
-/

/-- The `Coordinate` struct of the source: three signed integer components.
The cubic invariant `x + y + z = 0` is not part of the struct itself; it is
checked by the fallible constructor and carried as a hypothesis in theorems,
exactly as in the source where any triple can inhabit the struct but only
validated ones are handed out. -/
structure Coordinate where
  x : Int
  y : Int
  z : Int
deriving DecidableEq, Repr

namespace Coordinate

/-- The cubic-coordinate invariant the library maintains. -/
def valid (c : Coordinate) : Prop := c.x + c.y + c.z = 0

instance (c : Coordinate) : Decidable c.valid := by
  unfold valid; infer_instance

/-- `Coordinate::new`: the default constructor, returning the origin wrapped
in a `Result` to match `at`, but always `Ok`. -/
def new : Except String Coordinate := Except.ok ⟨0, 0, 0⟩

/-- `Coordinate::at`: the explicit-components constructor; succeeds exactly
when the components sum to zero, otherwise returns the library's sole error. -/
def at' (x y z : Int) : Except String Coordinate :=
  if x + y + z = 0 then Except.ok ⟨x, y, z⟩
  else Except.error "Invalid cubic coordinates"

/-- `Coordinate::neighbors` as written in the source: each of the six results
is produced by `at(...).unwrap()`. `unwrap` on an `Err` panics, which the
embedding records as `none`; a `some` result means no panic occurred. -/
def neighborsChecked (c : Coordinate) : Option (List Coordinate) := do
  let n1 ← (at' (c.x + 1) c.y (c.z - 1)).toOption
  let n2 ← (at' (c.x + 1) (c.y - 1) c.z).toOption
  let n3 ← (at' c.x (c.y - 1) (c.z + 1)).toOption
  let n4 ← (at' c.x (c.y + 1) (c.z - 1)).toOption
  let n5 ← (at' (c.x - 1) c.y (c.z + 1)).toOption
  let n6 ← (at' (c.x - 1) (c.y + 1) c.z).toOption
  pure [n1, n2, n3, n4, n5, n6]

/-- The value `Coordinate::neighbors` returns when no `unwrap` panics; the
theorem for the unwrap-safety claim shows `neighborsChecked` always yields
`some` of this list on a valid input. -/
def neighbors (c : Coordinate) : List Coordinate :=
  [⟨c.x + 1, c.y, c.z - 1⟩,
   ⟨c.x + 1, c.y - 1, c.z⟩,
   ⟨c.x, c.y - 1, c.z + 1⟩,
   ⟨c.x, c.y + 1, c.z - 1⟩,
   ⟨c.x - 1, c.y, c.z + 1⟩,
   ⟨c.x - 1, c.y + 1, c.z⟩]

/-- `Coordinate::distance_to`: half the L1 norm of the component-wise
difference, using integer division as in the source. -/
def distance_to (a b : Coordinate) : Int :=
  (|a.x - b.x| + |a.y - b.y| + |a.z - b.z|) / 2

/-- `impl Add for Coordinate`: component-wise sum, no validation. -/
def add (a b : Coordinate) : Coordinate := ⟨a.x + b.x, a.y + b.y, a.z + b.z⟩

/-- `impl Sub for Coordinate`: component-wise difference, no validation. -/
def sub (a b : Coordinate) : Coordinate := ⟨a.x - b.x, a.y - b.y, a.z - b.z⟩

instance : Add Coordinate := ⟨add⟩

instance : Sub Coordinate := ⟨sub⟩

/-- The component-wise additive inverse, as described by the spec when it says
subtraction is addition of the additive inverse (the source has no `Neg` impl;
this is the spec's description, used only on the spec side of that claim). -/
def neg (a : Coordinate) : Coordinate := ⟨-a.x, -a.y, -a.z⟩

/-- The structural equality test generated by `derive(PartialEq)`:
component-wise comparison of `x`, `y`, `z`. -/
def beqRust (a b : Coordinate) : Bool :=
  a.x == b.x && a.y == b.y && a.z == b.z

/-- The comparison generated by `derive(PartialOrd)`: compare `x`; if equal
compare `y`; if equal compare `z`. On `i64` fields it never returns `None`,
so each branch wraps its `Ordering` in `some`. -/
def pcmp (a b : Coordinate) : Option Ordering :=
  match compare a.x b.x with
  | Ordering.eq =>
    match compare a.y b.y with
    | Ordering.eq => some (compare a.z b.z)
    | o => some o
  | o => some o

end Coordinate

/-- Helper: on a valid input every internal `at` call inside `neighbors`
succeeds, so the checked enumeration returns exactly the unwrapped list. -/
lemma neighborsChecked_eq (c : Coordinate) (h : c.valid) :
    Coordinate.neighborsChecked c = some (Coordinate.neighbors c) := by
  have hx : c.x + c.y + c.z = 0 := h
  unfold Coordinate.neighborsChecked Coordinate.at'
  have h1 : c.x + 1 + c.y + (c.z - 1) = 0 := by omega
  have h2 : c.x + 1 + (c.y - 1) + c.z = 0 := by omega
  have h3 : c.x + (c.y - 1) + (c.z + 1) = 0 := by omega
  have h4 : c.x + (c.y + 1) + (c.z - 1) = 0 := by omega
  have h5 : c.x - 1 + c.y + (c.z + 1) = 0 := by omega
  have h6 : c.x - 1 + (c.y + 1) + c.z = 0 := by omega
  simp [hx, h1, h2, h3, h4, h5, h6, Except.toOption, Coordinate.neighbors]

/-- Claim C1: `at(x, y, z)` succeeds with exactly the components `(x, y, z)`
whenever `x + y + z = 0`, fails with the invalid-coordinate error whenever
`x + y + z ≠ 0`, and this is the only failure mode: `new` always succeeds and
the `unwrap`s inside `neighbors` never fail on a valid input. -/
theorem at_validation_sole_failure (x y z : Int) :
    (x + y + z = 0 → Coordinate.at' x y z = Except.ok ⟨x, y, z⟩) ∧
    (x + y + z ≠ 0 →
      Coordinate.at' x y z = Except.error "Invalid cubic coordinates") ∧
    Coordinate.new = Except.ok ⟨0, 0, 0⟩ ∧
    (∀ c : Coordinate, c.valid → (Coordinate.neighborsChecked c).isSome) := by
  refine ⟨fun h => ?_, fun h => ?_, rfl, fun c hc => ?_⟩
  · simp [Coordinate.at', h]
  · simp [Coordinate.at', h]
  · rw [neighborsChecked_eq c hc]; rfl

/-- Witness for C1 at concrete inputs: `at(1, 2, -3)` succeeds and
`at(3, 1, 4)` fails. -/
theorem at_validation_sole_failure_w :
    Coordinate.at' 1 2 (-3) = Except.ok ⟨1, 2, -3⟩ ∧
    Coordinate.at' 3 1 4 = Except.error "Invalid cubic coordinates" :=
  ⟨(at_validation_sole_failure 1 2 (-3)).1 (by decide),
   (at_validation_sole_failure 3 1 4).2.1 (by decide)⟩

/-- Claim C2: on a valid coordinate, `neighbors` returns exactly 6
coordinates, each valid and each at `distance_to` exactly 1 from the input. -/
theorem neighbors_valid_dist_one (c : Coordinate) (h : c.valid) :
    (Coordinate.neighbors c).length = 6 ∧
    ∀ n ∈ Coordinate.neighbors c,
      n.valid ∧ Coordinate.distance_to c n = 1 := by
  have hx : c.x + c.y + c.z = 0 := h
  refine ⟨rfl, fun n hn => ?_⟩
  simp only [Coordinate.neighbors, List.mem_cons, List.not_mem_nil,
    or_false] at hn
  rcases hn with h1 | h1 | h1 | h1 | h1 | h1 <;> subst h1 <;>
    constructor <;>
    · simp only [Coordinate.valid, Coordinate.distance_to,
        ← Int.natCast_natAbs]
      omega

/-- Witness for C2 at the concrete valid coordinate `(2, -5, 3)`. -/
theorem neighbors_valid_dist_one_w :
    (Coordinate.neighbors ⟨2, -5, 3⟩).length = 6 ∧
    ∀ n ∈ Coordinate.neighbors ⟨2, -5, 3⟩,
      n.valid ∧ Coordinate.distance_to ⟨2, -5, 3⟩ n = 1 :=
  neighbors_valid_dist_one ⟨2, -5, 3⟩ (by decide)

/-- Claim C3: `distance_to` is half the L1 norm of the componentwise
difference, and on valid coordinates the integer division is exact because
the absolute differences sum to an even number. -/
theorem distance_div_exact (a b : Coordinate)
    (ha : a.valid) (hb : b.valid) :
    Coordinate.distance_to a b
      = (|a.x - b.x| + |a.y - b.y| + |a.z - b.z|) / 2 ∧
    2 ∣ (|a.x - b.x| + |a.y - b.y| + |a.z - b.z|) ∧
    2 * Coordinate.distance_to a b
      = |a.x - b.x| + |a.y - b.y| + |a.z - b.z| := by
  have hx : a.x + a.y + a.z = 0 := ha
  have hy : b.x + b.y + b.z = 0 := hb
  refine ⟨rfl, ?_, ?_⟩ <;>
    · simp only [Coordinate.distance_to, ← Int.natCast_natAbs]
      omega

/-- Witness for C3 at the concrete valid pair `(-3, -1, 4)`, `(2, 7, -9)`. -/
theorem distance_div_exact_w :
    Coordinate.distance_to ⟨-3, -1, 4⟩ ⟨2, 7, -9⟩
      = (|(-3 : Int) - 2| + |(-1 : Int) - 7| + |(4 : Int) - -9|) / 2 ∧
    2 ∣ (|(-3 : Int) - 2| + |(-1 : Int) - 7| + |(4 : Int) - -9|) ∧
    2 * Coordinate.distance_to ⟨-3, -1, 4⟩ ⟨2, 7, -9⟩
      = |(-3 : Int) - 2| + |(-1 : Int) - 7| + |(4 : Int) - -9| :=
  distance_div_exact ⟨-3, -1, 4⟩ ⟨2, 7, -9⟩ (by decide) (by decide)

/-- Claim C4: addition and subtraction are component-wise, and both preserve
the cubic invariant on valid operands, so no re-validation is needed. -/
theorem add_sub_closed (a b : Coordinate) (ha : a.valid) (hb : b.valid) :
    a + b = ⟨a.x + b.x, a.y + b.y, a.z + b.z⟩ ∧
    a - b = ⟨a.x - b.x, a.y - b.y, a.z - b.z⟩ ∧
    (a + b).valid ∧ (a - b).valid := by
  have hx : a.x + a.y + a.z = 0 := ha
  have hy : b.x + b.y + b.z = 0 := hb
  refine ⟨rfl, rfl, ?_, ?_⟩
  · show a.x + b.x + (a.y + b.y) + (a.z + b.z) = 0
    omega
  · show a.x - b.x + (a.y - b.y) + (a.z - b.z) = 0
    omega

/-- Witness for C4 at the concrete valid pair `(-3, -1, 4)`, `(2, 7, -9)`. -/
theorem add_sub_closed_w :
    (⟨-3, -1, 4⟩ : Coordinate) + ⟨2, 7, -9⟩ = ⟨-1, 6, -5⟩ ∧
    (⟨-3, -1, 4⟩ : Coordinate) - ⟨2, 7, -9⟩ = ⟨-5, -8, 13⟩ ∧
    ((⟨-3, -1, 4⟩ : Coordinate) + ⟨2, 7, -9⟩).valid ∧
    ((⟨-3, -1, 4⟩ : Coordinate) - ⟨2, 7, -9⟩).valid := by
  have h := add_sub_closed ⟨-3, -1, 4⟩ ⟨2, 7, -9⟩ (by decide) (by decide)
  exact ⟨by decide, by decide, h.2.2.1, h.2.2.2⟩

/-- Claim C5: on valid coordinates, `(a + b) - b = a`, addition is commutative
and associative, and subtraction is addition of the component-wise additive
inverse. -/
theorem add_sub_algebra (a b c : Coordinate)
    (ha : a.valid) (hb : b.valid) (hc : c.valid) :
    (a + b) - b = a ∧
    a + b = b + a ∧
    (a + b) + c = a + (b + c) ∧
    a - b = a + b.neg := by
  have add_def : ∀ u v : Coordinate, u + v = Coordinate.add u v :=
    fun _ _ => rfl
  have sub_def : ∀ u v : Coordinate, u - v = Coordinate.sub u v :=
    fun _ _ => rfl
  rcases a with ⟨ax, ay, az⟩
  rcases b with ⟨bx, by', bz⟩
  rcases c with ⟨cx, cy, cz⟩
  refine ⟨?_, ?_, ?_, ?_⟩ <;>
    · simp only [add_def, sub_def, Coordinate.add, Coordinate.sub,
        Coordinate.neg, Coordinate.mk.injEq]
      omega

/-- Witness for C5 at the concrete valid triple `(-3, -1, 4)`, `(2, 7, -9)`,
`(1, 0, -1)`. -/
theorem add_sub_algebra_w :
    ((⟨-3, -1, 4⟩ : Coordinate) + ⟨2, 7, -9⟩) - ⟨2, 7, -9⟩ = ⟨-3, -1, 4⟩ ∧
    (⟨-3, -1, 4⟩ : Coordinate) + ⟨2, 7, -9⟩ = ⟨2, 7, -9⟩ + ⟨-3, -1, 4⟩ ∧
    ((⟨-3, -1, 4⟩ : Coordinate) + ⟨2, 7, -9⟩) + ⟨1, 0, -1⟩
      = ⟨-3, -1, 4⟩ + (⟨2, 7, -9⟩ + ⟨1, 0, -1⟩) ∧
    (⟨-3, -1, 4⟩ : Coordinate) - ⟨2, 7, -9⟩
      = ⟨-3, -1, 4⟩ + Coordinate.neg ⟨2, 7, -9⟩ :=
  add_sub_algebra ⟨-3, -1, 4⟩ ⟨2, 7, -9⟩ ⟨1, 0, -1⟩
    (by decide) (by decide) (by decide)

/-- Helper: on valid coordinates the division in `distance_to` is exact, so
twice the distance is the sum of the absolute component differences. -/
lemma two_mul_distance (a b : Coordinate) (ha : a.valid) (hb : b.valid) :
    2 * Coordinate.distance_to a b
      = |a.x - b.x| + |a.y - b.y| + |a.z - b.z| := by
  have hx : a.x + a.y + a.z = 0 := ha
  have hy : b.x + b.y + b.z = 0 := hb
  simp only [Coordinate.distance_to, ← Int.natCast_natAbs]
  omega

/-- Claim C6: on valid coordinates `distance_to` is a metric: symmetric,
zero exactly on identical coordinates, and satisfying the triangle
inequality; the spec's worked example evaluates to 13. -/
theorem distance_metric (a b c : Coordinate)
    (ha : a.valid) (hb : b.valid) (hc : c.valid) :
    Coordinate.distance_to a b = Coordinate.distance_to b a ∧
    (Coordinate.distance_to a b = 0 ↔ a = b) ∧
    Coordinate.distance_to a c
      ≤ Coordinate.distance_to a b + Coordinate.distance_to b c ∧
    Coordinate.distance_to ⟨-3, -1, 4⟩ ⟨2, 7, -9⟩ = 13 := by
  refine ⟨?_, ?_, ?_, by decide⟩
  · have t1 := two_mul_distance a b ha hb
    have t2 := two_mul_distance b a hb ha
    rcases a with ⟨ax, ay, az⟩
    rcases b with ⟨bx, by', bz⟩
    simp only [← Int.natCast_natAbs] at t1 t2
    omega
  · have t1 := two_mul_distance a b ha hb
    rcases a with ⟨ax, ay, az⟩
    rcases b with ⟨bx, by', bz⟩
    simp only [← Int.natCast_natAbs] at t1
    simp only [Coordinate.mk.injEq]
    omega
  · have t1 := two_mul_distance a b ha hb
    have t3 := two_mul_distance a c ha hc
    have t4 := two_mul_distance b c hb hc
    rcases a with ⟨ax, ay, az⟩
    rcases b with ⟨bx, by', bz⟩
    rcases c with ⟨cx, cy, cz⟩
    simp only [← Int.natCast_natAbs] at t1 t3 t4
    omega

/-- Witness for C6 at the concrete valid triple `(-3, -1, 4)`, `(2, 7, -9)`,
`(0, 0, 0)`. -/
theorem distance_metric_w :
    Coordinate.distance_to ⟨-3, -1, 4⟩ ⟨2, 7, -9⟩
      = Coordinate.distance_to ⟨2, 7, -9⟩ ⟨-3, -1, 4⟩ ∧
    (Coordinate.distance_to ⟨-3, -1, 4⟩ ⟨2, 7, -9⟩ = 0 ↔
      (⟨-3, -1, 4⟩ : Coordinate) = ⟨2, 7, -9⟩) ∧
    Coordinate.distance_to ⟨-3, -1, 4⟩ ⟨0, 0, 0⟩
      ≤ Coordinate.distance_to ⟨-3, -1, 4⟩ ⟨2, 7, -9⟩
        + Coordinate.distance_to ⟨2, 7, -9⟩ ⟨0, 0, 0⟩ ∧
    Coordinate.distance_to ⟨-3, -1, 4⟩ ⟨2, 7, -9⟩ = 13 :=
  distance_metric ⟨-3, -1, 4⟩ ⟨2, 7, -9⟩ ⟨0, 0, 0⟩
    (by decide) (by decide) (by decide)

/-- Claim C7: the neighbors of the origin are exactly the six documented
coordinates, in the source's fixed enumeration order, hence also as a set. -/
theorem neighbors_origin :
    Coordinate.neighbors ⟨0, 0, 0⟩ =
      [⟨1, 0, -1⟩, ⟨1, -1, 0⟩, ⟨0, -1, 1⟩,
       ⟨0, 1, -1⟩, ⟨-1, 0, 1⟩, ⟨-1, 1, 0⟩] ∧
    (Coordinate.neighbors ⟨0, 0, 0⟩).toFinset =
      {⟨1, 0, -1⟩, ⟨1, -1, 0⟩, ⟨0, -1, 1⟩,
       ⟨0, 1, -1⟩, ⟨-1, 0, 1⟩, ⟨-1, 1, 0⟩} := by
  constructor <;> decide

/-- Claim C8: the default constructor always succeeds, returns `(0, 0, 0)`,
and agrees with `at(0, 0, 0)`. -/
theorem new_origin :
    Coordinate.new = Except.ok ⟨0, 0, 0⟩ ∧
    Coordinate.at' 0 0 0 = Coordinate.new := by
  constructor <;> rfl

/-- Claim C9: the derived equality is structural (component-wise), and the
derived ordering is the lexicographic comparison of `x`, then `y`, then `z`,
with exact integer semantics. -/
theorem eq_ord_structural (a b : Coordinate) :
    (Coordinate.beqRust a b = true ↔ a = b) ∧
    (Coordinate.pcmp a b = some Ordering.lt ↔
      (a.x < b.x ∨ (a.x = b.x ∧ (a.y < b.y ∨ (a.y = b.y ∧ a.z < b.z))))) ∧
    (Coordinate.pcmp a b = some Ordering.eq ↔ a = b) ∧
    (Coordinate.pcmp a b = some Ordering.gt ↔
      (b.x < a.x ∨ (a.x = b.x ∧ (b.y < a.y ∨ (a.y = b.y ∧ b.z < a.z))))) := by
  rcases a with ⟨ax, ay, az⟩
  rcases b with ⟨bx, by', bz⟩
  have l1 : compare ax bx = Ordering.lt ↔ ax < bx := compare_lt_iff_lt
  have q1 : compare ax bx = Ordering.eq ↔ ax = bx := compare_eq_iff_eq
  have g1 : compare ax bx = Ordering.gt ↔ bx < ax := compare_gt_iff_gt
  have l2 : compare ay by' = Ordering.lt ↔ ay < by' := compare_lt_iff_lt
  have q2 : compare ay by' = Ordering.eq ↔ ay = by' := compare_eq_iff_eq
  have g2 : compare ay by' = Ordering.gt ↔ by' < ay := compare_gt_iff_gt
  have l3 : compare az bz = Ordering.lt ↔ az < bz := compare_lt_iff_lt
  have q3 : compare az bz = Ordering.eq ↔ az = bz := compare_eq_iff_eq
  have g3 : compare az bz = Ordering.gt ↔ bz < az := compare_gt_iff_gt
  refine ⟨?_, ?_, ?_, ?_⟩
  · simp [Coordinate.beqRust, Coordinate.mk.injEq, and_assoc]
  all_goals
    cases h1 : compare ax bx <;> cases h2 : compare ay by' <;>
      cases h3 : compare az bz <;>
      simp only [Coordinate.pcmp, h1, h2, h3, Coordinate.mk.injEq,
        Option.some.injEq, reduceCtorEq] <;>
      simp_all

/-- Claim C10: on a valid coordinate none of the six internal
`at(...).unwrap()` calls in `neighbors` can panic: the checked enumeration
returns `some` of the unwrapped neighbor list. -/
theorem neighbors_unwrap_safe (c : Coordinate) (h : c.valid) :
    Coordinate.neighborsChecked c = some (Coordinate.neighbors c) :=
  neighborsChecked_eq c h

/-- Witness for C10 at the concrete valid coordinate `(4, -9, 5)`. -/
theorem neighbors_unwrap_safe_w :
    Coordinate.neighborsChecked ⟨4, -9, 5⟩
      = some (Coordinate.neighbors ⟨4, -9, 5⟩) :=
  neighbors_unwrap_safe ⟨4, -9, 5⟩ (by decide)
